import Mathlib

/-!
Verification development for the node-lame streaming transcoding stages.

The development shallowly embeds the two Transform stages of the repository
(lib/encoder.js and lib/decoder.js, provided as src/unnamed/part_000):

* the Encoder constructor with its JavaScript destructuring semantics,
* the Encoder lazy initialization, chunk transform and end-of-stream flush,
* the Decoder per-chunk feed / read loop with its metadata and format handling.

The native binding (bindings.js) is not part of the sources; its constants and
the engine behaviour are modelled from the specification of the codec engine
adapter, and every engine response is passed in explicitly as an oracle, so
each embedded operation is a pure executable function.
-/

namespace NodeLame

/-- Bytes are modelled as natural numbers; only their count and identity matter. -/
abbrev Byte := Nat

/-! ## Binding constants

Modelled from the spec: the binding module (bindings.js) is not under src/;
the values below are the engine header constants the binding re-exports. -/

/-- Modelled from the spec: engine success status for the encoder. -/
def LAME_OKAY : Int := 0

/-- Modelled from the spec: byte width of a C short on the target platform. -/
def sizeof_short : Nat := 2

/-- Modelled from the spec: byte width of a C float on the target platform. -/
def sizeof_float : Nat := 4

/-- Modelled from the spec: byte width of a C double on the target platform. -/
def sizeof_double : Nat := 8

/-- Bit width accepted for integer PCM input (line 152 of the source). -/
def SHORT_BITS : Nat := sizeof_short * 8

/-- Bit width accepted for float PCM input (line 153 of the source). -/
def FLOAT_BITS : Nat := sizeof_float * 8

/-- Bit width accepted for double PCM input (line 154 of the source). -/
def DOUBLE_BITS : Nat := sizeof_double * 8

/-- Modelled from the spec: decoder success status. -/
def MPG123_OK : Int := 0

/-- Modelled from the spec: decoder end-of-stream status. -/
def MPG123_DONE : Int := -12

/-- Modelled from the spec: decoder status asking for more input. -/
def MPG123_NEED_MORE : Int := -10

/-- Modelled from the spec: decoder status reporting a new output format. -/
def MPG123_NEW_FORMAT : Int := -11

/-- Modelled from the spec: bit in the read event flags reporting new ID3 data. -/
def MPG123_NEW_ID3 : Nat := 1

/-- Kinds of PCM sample encodings the encoder can present to the engine. -/
inductive PcmType where
  | shortInt
  | float
  | double
  deriving DecidableEq, Repr

/-- Errors surfaced by the stages, each carrying the engine code it wraps.
The referenceError constructor models a JavaScript ReferenceError raised by
reading an identifier that is not bound in any enclosing scope. -/
inductive JsError where
  | unsupportedFormat
  | paramsError (code : Int)
  | encodeError (code : Int)
  | feedError (code : Int)
  | readError (code : Int)
  | metadataError (code : Int)
  | referenceError (name : String)
  deriving DecidableEq, Repr

/-! ## JavaScript value semantics used by the constructor -/

/-- Truthiness of an option field that is either absent (undefined) or a boolean. -/
def jsTruthy : Option Bool → Bool
  | none => false
  | some b => b

/-- Loose equality of a possibly absent numeric option field with a number:
undefined == n is false for every number n. -/
def jsLooseEqNat : Option Nat → Nat → Bool
  | none, _ => false
  | some v, n => v == n

/-- Options object accepted by the Encoder constructor (fields of interest;
index.d.ts lists float, signed, bitDepth, channels, sampleRate). An absent
field is none. -/
structure EncOptions where
  channels : Option Nat
  bitDepth : Option Nat
  simpleRate : Option Nat
  sampleRate : Option Nat
  signed : Option Bool
  float : Option Bool
  deriving DecidableEq, Repr

/-- Options object with every field absent: the all-default construction. -/
def EncOptions.empty : EncOptions :=
  { channels := none, bitDepth := none, simpleRate := none,
    sampleRate := none, signed := none, float := none }

/-- Rest object produced by the destructuring pattern of the constructor
(line 165): channels, bitDepth, simpleRate and signed are removed from the
options object; every other field stays. -/
def restOptions (o : EncOptions) : EncOptions :=
  { o with channels := none, bitDepth := none, simpleRate := none, signed := none }

/-- Configuration fields stored on a successfully constructed Encoder
(lines 171 to 184 of the source). -/
structure EncConfig where
  channels : Nat
  bitDepth : Nat
  simpleRate : Nat
  signed : Bool
  inputType : PcmType
  deriving DecidableEq, Repr

/-- Embedding of the Encoder constructor (lines 165 to 185). The destructuring
binds channels, bitDepth, simpleRate and signed with their defaults and leaves
the remaining fields in the rest object named options; the input type checks
then read options.float and options.bitDepth from that rest object. -/
def Encoder.construct (o : EncOptions) : Except JsError EncConfig :=
  let channels := o.channels.getD 2
  let bitDepth := o.bitDepth.getD 16
  let simpleRate := o.simpleRate.getD 44100
  let signed := o.signed.getD (bitDepth != 8)
  let rest := restOptions o
  if jsTruthy rest.float && jsLooseEqNat rest.bitDepth DOUBLE_BITS then
    .ok { channels := channels, bitDepth := bitDepth, simpleRate := simpleRate,
          signed := signed, inputType := .double }
  else if jsTruthy rest.float && jsLooseEqNat rest.bitDepth FLOAT_BITS then
    .ok { channels := channels, bitDepth := bitDepth, simpleRate := simpleRate,
          signed := signed, inputType := .float }
  else if !jsTruthy rest.float && jsLooseEqNat rest.bitDepth SHORT_BITS then
    .ok { channels := channels, bitDepth := bitDepth, simpleRate := simpleRate,
          signed := signed, inputType := .shortInt }
  else
    .error .unsupportedFormat

/-! ## Decoder stage

Embedding of Decoder._transform (lines 62 to 111): feed the chunk, then run
the read loop. Each engine response is supplied by a script; one script entry
answers one read call together with the metadata and format answers the loop
would request for that read. -/

/-- PCM format descriptor reported by the engine getformat call. -/
structure FormatDesc where
  sampleRate : Nat
  channels : Nat
  encoding : Nat
  deriving DecidableEq, Repr

/-- Engine answer to an id3 metadata fetch: the status and the truthiness of
the tag field of the returned object (which selects the event variant). -/
structure Id3Resp where
  ret2 : Int
  hasTagField : Bool
  deriving DecidableEq, Repr

/-- Scripted engine answer to one read call: the status, the count of bytes
written into the output buffer, the event flags, and the answers the engine
would give to a metadata fetch or a format fetch made while handling it. -/
structure ReadStep where
  ret : Int
  bytes : Nat
  meta : Nat
  id3 : Id3Resp
  fmt : FormatDesc
  deriving DecidableEq, Repr

/-- Outward events emitted by the Decoder while processing a chunk. -/
inductive DecEvent where
  | pcm (bytes : Nat)
  | id3 (version : Nat)
  | format (fmt : FormatDesc)
  deriving DecidableEq, Repr

/-- Engine calls issued by the Decoder while processing a chunk. -/
inductive DecCall where
  | feed (len : Nat)
  | readCall
  | id3Call
  | getformatCall
  deriving DecidableEq, Repr

/-- Completion of a chunk: done() without error, done(error), or starved when
the loop issues a read the script does not answer. -/
inductive DecOutcome where
  | done
  | failed (e : JsError)
  | starved
  deriving DecidableEq, Repr

/-- Result of processing one Decoder chunk: emitted events, engine calls, and
the completion outcome, each in program order. -/
structure DecResult where
  events : List DecEvent
  calls : List DecCall
  outcome : DecOutcome
  deriving DecidableEq, Repr

/-- Condition of line 74 of the source, written meta & MPG123_NEW_ID3 !== 0.
JavaScript gives !== a higher precedence than &, so the test coerces the
boolean MPG123_NEW_ID3 !== 0 to a number and computes meta & 1. -/
def jsNewId3Cond (meta : Nat) : Bool :=
  meta &&& (if MPG123_NEW_ID3 != 0 then 1 else 0) != 0

/-- Read loop of Decoder._transform (the read and handleRead closures, lines
71 to 110). Each list entry answers one read; an empty script answers a read
with starvation. The branch on jsNewId3Cond reproduces lines 74 to 85: when
the condition holds the result is dispatched directly, otherwise the loop
fetches id3 metadata first and dispatches only if that fetch succeeds. -/
def Decoder.runReads : List ReadStep → DecResult
  | [] => { events := [], calls := [DecCall.readCall], outcome := .starved }
  | r :: rest =>
    let pushEvs : List DecEvent := if 0 < r.bytes then [DecEvent.pcm r.bytes] else []
    let dispatch : DecResult :=
      if r.ret == MPG123_DONE || r.ret == MPG123_NEED_MORE then
        { events := pushEvs, calls := [], outcome := .done }
      else if r.ret == MPG123_NEW_FORMAT then
        let t := Decoder.runReads rest
        { events := pushEvs ++ DecEvent.format r.fmt :: t.events,
          calls := DecCall.getformatCall :: t.calls,
          outcome := t.outcome }
      else if r.ret != MPG123_OK then
        { events := pushEvs, calls := [], outcome := .failed (.readError r.ret) }
      else
        let t := Decoder.runReads rest
        { events := pushEvs ++ t.events, calls := t.calls, outcome := t.outcome }
    if jsNewId3Cond r.meta then
      { events := dispatch.events,
        calls := DecCall.readCall :: dispatch.calls,
        outcome := dispatch.outcome }
    else if r.id3.ret2 == MPG123_OK then
      { events := DecEvent.id3 (if r.id3.hasTagField then 1 else 2) :: dispatch.events,
        calls := DecCall.readCall :: DecCall.id3Call :: dispatch.calls,
        outcome := dispatch.outcome }
    else
      { events := [],
        calls := [DecCall.readCall, DecCall.id3Call],
        outcome := .failed (.metadataError r.id3.ret2) }

/-- Scripted engine behaviour for one whole Decoder chunk: the feed status and
the answers to the successive reads. -/
structure DecScript where
  feedRet : Int
  reads : List ReadStep
  deriving DecidableEq, Repr

/-- Embedding of Decoder._transform (lines 62 to 69 plus the read loop): feed
the chunk; on feed success enter the read loop, otherwise fail the chunk with
the feed error and never read. -/
def Decoder.transformStep (chunkLen : Nat) (s : DecScript) : DecResult :=
  if s.feedRet == MPG123_OK then
    let t := Decoder.runReads s.reads
    { events := t.events, calls := DecCall.feed chunkLen :: t.calls, outcome := t.outcome }
  else
    { events := [], calls := [DecCall.feed chunkLen],
      outcome := .failed (.feedError s.feedRet) }

/-! ## Encoder stage runtime

Embedding of Encoder._init, Encoder._transform and Encoder._flush (lines 193
to 306). The engine handle gfp and the count of close calls are tracked so
that release behaviour can be stated; the remainder buffer models the
_remainder property, with the empty list standing for null or undefined. -/

/-- Mutable state of an Encoder stream between calls. -/
structure EncState where
  gfp : Option Nat
  closeCalls : Nat
  initCalled : Bool
  blockAlign : Nat
  remainder : List Byte
  channels : Nat
  bitDepth : Nat
  inputType : PcmType
  deriving DecidableEq, Repr

/-- Engine calls issued by the Encoder, in program order. -/
inductive EncCall where
  | initParams
  | encodeBuffer (data : List Byte) (numSamples : Nat) (outCap : Nat)
  | flushNogap (outCap : Nat)
  | close
  deriving DecidableEq, Repr

/-- Completion of one transform or flush call: the done callback invoked
without error, the done callback invoked with an error, or an exception
escaping the engine callback so that done never runs. -/
inductive CbOutcome where
  | completed
  | failed (e : JsError)
  | crashed (e : JsError)
  deriving DecidableEq, Repr

/-- Result of one Encoder transform or flush call: the state afterwards, the
engine calls issued, the buffers pushed downstream, and the completion. -/
structure EncResult where
  st : EncState
  calls : List EncCall
  pushed : List (List Byte)
  outcome : CbOutcome
  deriving DecidableEq, Repr

/-- Scripted engine behaviour for one Encoder call: the status returned by
lame_init_params if it is invoked, and the bulk-encode result, namely the
bytesWritten value handed to the callback and the bytes the engine wrote into
the output buffer. -/
structure EncEngine where
  initParamsRet : Int
  encodeRet : Int
  encodeOut : List Byte
  flushRet : Int
  deriving DecidableEq, Repr

/-- Embedding of Encoder._init (lines 193 to 201): run lame_init_params, fail
with the params error on a non-okay status, otherwise store the block
alignment bitDepth / 8 times channels. -/
def Encoder.initStep (initParamsRet : Int) (st : EncState) : Except JsError EncState :=
  if initParamsRet == LAME_OKAY then
    .ok { st with blockAlign := st.bitDepth / 8 * st.channels }
  else
    .error (.paramsError initParamsRet)

/-- Remainder handling of Encoder._transform (lines 220 to 232): concatenate
the stored remainder with the chunk, keep the maximal block-aligned front
part for the engine and store the trailing bytes as the new remainder. -/
def alignChunk (blockAlign : Nat) (rem chunk : List Byte) : List Byte × List Byte :=
  let combined := rem ++ chunk
  let r := combined.length % blockAlign
  (combined.take (combined.length - r), combined.drop (combined.length - r))

/-- Output buffer size of the bulk-encode call (lines 238 to 239): the source
computes 1.25 * numSamples + 7200 and Buffer.alloc truncates the fractional
value to an integer length, giving the floor of 1.25 * numSamples plus 7200. -/
def encodeAllocSize (numSamples : Nat) : Nat :=
  5 * numSamples / 4 + 7200

/-- Body of Encoder._transform after initialization (lines 220 to 263): align
the input, issue the bulk-encode call, and handle the bytesWritten result in
the callback: negative fails with the encode error, positive pushes the
output trimmed to that length, zero pushes nothing. -/
def Encoder.transformBody (eng : EncEngine) (st : EncState) (pre : List EncCall)
    (chunk : List Byte) : EncResult :=
  let p := alignChunk st.blockAlign st.remainder chunk
  let numSamples := p.1.length / st.blockAlign
  let outCap := encodeAllocSize numSamples
  let st1 := { st with remainder := p.2 }
  let calls := pre ++ [EncCall.encodeBuffer p.1 numSamples outCap]
  if eng.encodeRet < 0 then
    { st := st1, calls := calls, pushed := [],
      outcome := .failed (.encodeError eng.encodeRet) }
  else if 0 < eng.encodeRet then
    { st := st1, calls := calls, pushed := [eng.encodeOut.take eng.encodeRet.toNat],
      outcome := .completed }
  else
    { st := st1, calls := calls, pushed := [], outcome := .completed }

/-- Embedding of Encoder._transform (lines 209 to 264): on the first call run
the lazy initialization, failing the chunk if it fails (and leaving
_initCalled unset in that case), then run the transform body. -/
def Encoder.transformStep (eng : EncEngine) (st0 : EncState) (chunk : List Byte) : EncResult :=
  if st0.initCalled then
    Encoder.transformBody eng st0 [] chunk
  else
    match Encoder.initStep eng.initParamsRet st0 with
    | .error e => { st := st0, calls := [EncCall.initParams], pushed := [], outcome := .failed e }
    | .ok st1 => Encoder.transformBody eng { st1 with initCalled := true } [EncCall.initParams] chunk

/-- Callback of Encoder._flush (lines 289 to 304): the engine flush completes,
the handle is closed and nulled, and then the callback reads the identifier
bytesWritten, which is bound in no enclosing scope because the callback
declares no parameter; the resulting ReferenceError escapes before the flush
result is ever inspected, so nothing is pushed and done is never called. -/
def Encoder.flushBody (st : EncState) (pre : List EncCall) : EncResult :=
  { st := { st with gfp := none, closeCalls := st.closeCalls + 1 },
    calls := pre ++ [EncCall.flushNogap 7200, EncCall.close],
    pushed := [],
    outcome := .crashed (.referenceError "bytesWritten") }

/-- Embedding of Encoder._flush (lines 270 to 306): allocate the fixed 7200
byte output buffer, run the lazy initialization if it never ran (failing the
stream without touching the handle if it fails), then issue the engine flush
whose callback closes the handle and crashes on the unbound bytesWritten. -/
def Encoder.flushStep (eng : EncEngine) (st0 : EncState) : EncResult :=
  if st0.initCalled then
    Encoder.flushBody st0 []
  else
    match Encoder.initStep eng.initParamsRet st0 with
    | .error e => { st := st0, calls := [EncCall.initParams], pushed := [], outcome := .failed e }
    | .ok st1 => Encoder.flushBody { st1 with initCalled := true } [EncCall.initParams]

/-- State of an Encoder configured with two channels of 16 bit signed integer
PCM, before the lazy initialization has run. -/
def encFreshState : EncState :=
  { gfp := some 1, closeCalls := 0, initCalled := false, blockAlign := 0,
    remainder := [], channels := 2, bitDepth := 16, inputType := .shortInt }

/-- State of the same Encoder after a successful lazy initialization: the
block alignment is 16 / 8 * 2 = 4 bytes. -/
def encReadyState : EncState :=
  { gfp := some 1, closeCalls := 0, initCalled := true, blockAlign := 4,
    remainder := [], channels := 2, bitDepth := 16, inputType := .shortInt }

/-- Benign scripted engine: initialization succeeds and the encode call
reports zero bytes written. -/
def engZero : EncEngine :=
  { initParamsRet := LAME_OKAY, encodeRet := 0, encodeOut := [], flushRet := 0 }

/-! ## Deterministic engine model for multi-write runs

Modelled from the spec: the codec engine adapter is an external collaborator
whose correctness is taken as given; the compressed bytes it has produced are
a function of all sample bytes fed so far, and output already handed out is
never retracted, so the production function is monotone under appending. -/

/-- Modelled from the spec: a deterministic codec engine. emit gives the total
compressed output as a function of the total bytes fed; mono states that
feeding more input only extends the output already produced. -/
structure SpecEngine where
  emit : List Byte → List Byte
  mono : ∀ xs ys, emit xs <+: emit (xs ++ ys)

/-- Scripted single-call behaviour of a SpecEngine that has already been fed
the bytes fed and is now fed sub: the callback receives the count of newly
produced bytes and the buffer holds exactly those bytes. -/
def SpecEngine.oracle (E : SpecEngine) (fed sub : List Byte) : EncEngine :=
  let delta := (E.emit (fed ++ sub)).drop (E.emit fed).length
  { initParamsRet := LAME_OKAY, encodeRet := (delta.length : Int), encodeOut := delta,
    flushRet := 0 }

/-- Maximal front part of a byte list whose length is a multiple of B. -/
def alignedPart (B : Nat) (l : List Byte) : List Byte :=
  l.take (l.length - l.length % B)

/-- Trailing bytes of a byte list left after removing the aligned part. -/
def trailingPart (B : Nat) (l : List Byte) : List Byte :=
  l.drop (l.length - l.length % B)

/-- Sequence of Encoder writes against a deterministic engine: the
accumulator carries the stage state, the bytes fed to the engine so far and
the buffers pushed so far; each write runs one transform step whose engine
answers are derived from the deterministic engine. -/
def Encoder.runWrites (E : SpecEngine) :
    EncState × List Byte × List (List Byte) → List (List Byte) →
    EncState × List Byte × List (List Byte)
  | acc, [] => acc
  | (st, fed, outs), c :: cs =>
    let sub := (alignChunk st.blockAlign st.remainder c).1
    let r := Encoder.transformStep (E.oracle fed sub) st c
    Encoder.runWrites E (r.st, fed ++ sub, outs ++ r.pushed) cs

/-! ## Arithmetic and list lemmas about the alignment split -/

lemma alignChunk_eq (B : Nat) (rem c : List Byte) :
    alignChunk B rem c = (alignedPart B (rem ++ c), trailingPart B (rem ++ c)) := rfl

lemma alignedPart_append_trailingPart (B : Nat) (l : List Byte) :
    alignedPart B l ++ trailingPart B l = l :=
  List.take_append_drop _ _

lemma length_alignedPart (B : Nat) (l : List Byte) :
    (alignedPart B l).length = l.length - l.length % B := by
  have h := Nat.mod_le l.length B
  simp only [alignedPart, List.length_take]
  omega

lemma alignedPart_mod (B : Nat) (l : List Byte) :
    (alignedPart B l).length % B = 0 := by
  rw [length_alignedPart]
  have h := Nat.div_add_mod l.length B
  have h2 : l.length - l.length % B = B * (l.length / B) := by omega
  rw [h2, Nat.mul_mod_right]

lemma length_trailingPart (B : Nat) (l : List Byte) :
    (trailingPart B l).length = l.length % B := by
  have h := Nat.mod_le l.length B
  simp only [trailingPart, List.length_drop]
  omega

lemma length_trailingPart_lt (B : Nat) (hB : 0 < B) (l : List Byte) :
    (trailingPart B l).length < B := by
  rw [length_trailingPart]
  exact Nat.mod_lt _ hB

lemma trailingPart_of_lt (B : Nat) (l : List Byte) (h : l.length < B) :
    trailingPart B l = l := by
  unfold trailingPart
  rw [Nat.mod_eq_of_lt h, Nat.sub_self, List.drop_zero]

lemma alignedPart_of_lt (B : Nat) (l : List Byte) (h : l.length < B) :
    alignedPart B l = [] := by
  unfold alignedPart
  rw [Nat.mod_eq_of_lt h, Nat.sub_self, List.take_zero]

lemma append_mod_left (B : Nat) (s u : List Byte) (hs : s.length % B = 0) :
    (s ++ u).length % B = u.length % B := by
  obtain ⟨k, hk⟩ := Nat.dvd_of_mod_eq_zero hs
  rw [List.length_append, hk, Nat.add_comm, Nat.add_mul_mod_self_left]

lemma alignedPart_append_left (B : Nat) (s u : List Byte) (hs : s.length % B = 0) :
    alignedPart B (s ++ u) = s ++ alignedPart B u := by
  have hu := Nat.mod_le u.length B
  unfold alignedPart
  rw [append_mod_left B s u hs, List.length_append,
    List.take_append_eq_append_take]
  have h1 : s.length + u.length - u.length % B = s.length + (u.length - u.length % B) := by
    omega
  rw [h1, List.take_of_length_le (by omega), Nat.add_sub_cancel_left]

lemma trailingPart_append_left (B : Nat) (s u : List Byte) (hs : s.length % B = 0) :
    trailingPart B (s ++ u) = trailingPart B u := by
  have hu := Nat.mod_le u.length B
  unfold trailingPart
  rw [append_mod_left B s u hs, List.length_append,
    List.drop_append_eq_append_drop]
  have h1 : s.length + u.length - u.length % B = s.length + (u.length - u.length % B) := by
    omega
  rw [h1, List.drop_eq_nil_of_le (by omega), Nat.add_sub_cancel_left, List.nil_append]

lemma prefix_drop_append {p q r : List Byte} (h1 : p <+: q) (h2 : q <+: r) :
    q.drop p.length ++ r.drop q.length = r.drop p.length := by
  obtain ⟨b, hb⟩ := h2
  obtain ⟨a, ha⟩ := h1
  subst hb
  subst ha
  simp only [List.drop_left]
  rw [List.append_assoc]
  simp only [List.drop_left]

/-! ## Behaviour of a transform step against the deterministic engine -/

/-- Engine answer whose bytesWritten value is the length of the bytes it
wrote; every answer derived from a deterministic engine has this shape. -/
def natEngine (n : Nat) (out : List Byte) : EncEngine :=
  { initParamsRet := LAME_OKAY, encodeRet := (n : Int), encodeOut := out, flushRet := 0 }

lemma oracle_eq_natEngine (E : SpecEngine) (fed sub : List Byte) :
    E.oracle fed sub =
      natEngine ((E.emit (fed ++ sub)).drop (E.emit fed).length).length
        ((E.emit (fed ++ sub)).drop (E.emit fed).length) := rfl

lemma Encoder.transformBody_natRet (st : EncState) (pre : List EncCall) (chunk : List Byte)
    (n : Nat) (out : List Byte) :
    (Encoder.transformBody (natEngine n out) st pre chunk).st =
      { st with remainder := (alignChunk st.blockAlign st.remainder chunk).2 } ∧
    (Encoder.transformBody (natEngine n out) st pre chunk).pushed.flatten = out.take n := by
  have h1 : ¬ (((n : Nat) : Int) < 0) := Int.not_lt.mpr (Int.natCast_nonneg n)
  simp only [Encoder.transformBody, natEngine]
  by_cases h2 : 0 < n
  · have h2i : (0 : Int) < ((n : Nat) : Int) := by exact_mod_cast h2
    rw [if_neg h1, if_pos h2i]
    refine ⟨rfl, ?_⟩
    simp
  · have h0 : n = 0 := by omega
    subst h0
    have h2i : ¬ ((0 : Int) < (((0 : Nat) : Nat) : Int)) := by simp
    rw [if_neg h1, if_neg h2i]
    exact ⟨rfl, by simp⟩

lemma Encoder.transformStep_oracle (E : SpecEngine) (fed : List Byte) (st : EncState)
    (c : List Byte) (hi : st.initCalled = true) :
    (Encoder.transformStep (E.oracle fed ((alignChunk st.blockAlign st.remainder c).1)) st c).st
      = { st with remainder := (alignChunk st.blockAlign st.remainder c).2 } ∧
    (Encoder.transformStep (E.oracle fed ((alignChunk st.blockAlign st.remainder c).1)) st c).pushed.flatten
      = (E.emit (fed ++ (alignChunk st.blockAlign st.remainder c).1)).drop
          (E.emit fed).length := by
  have hstep : Encoder.transformStep (E.oracle fed ((alignChunk st.blockAlign st.remainder c).1)) st c
      = Encoder.transformBody (E.oracle fed ((alignChunk st.blockAlign st.remainder c).1)) st [] c := by
    unfold Encoder.transformStep
    rw [hi]
    simp
  have hbody := Encoder.transformBody_natRet st [] c
    ((E.emit (fed ++ (alignChunk st.blockAlign st.remainder c).1)).drop (E.emit fed).length).length
    ((E.emit (fed ++ (alignChunk st.blockAlign st.remainder c).1)).drop (E.emit fed).length)
  rw [hstep, oracle_eq_natEngine]
  refine ⟨hbody.1, ?_⟩
  rw [hbody.2]
  exact List.take_length _

lemma Encoder.runWrites_char (E : SpecEngine) (B : Nat) (hB : 0 < B) :
    ∀ (cs : List (List Byte)) (st : EncState) (fed : List Byte) (outs : List (List Byte)),
      st.initCalled = true → st.blockAlign = B → st.remainder.length < B →
      (Encoder.runWrites E (st, fed, outs) cs).1 =
          { st with remainder := trailingPart B (st.remainder ++ cs.flatten) } ∧
      (Encoder.runWrites E (st, fed, outs) cs).2.1 =
          fed ++ alignedPart B (st.remainder ++ cs.flatten) ∧
      (Encoder.runWrites E (st, fed, outs) cs).2.2.flatten =
          outs.flatten ++ (E.emit (fed ++ alignedPart B (st.remainder ++ cs.flatten))).drop
            (E.emit fed).length := by
  intro cs
  induction cs with
  | nil =>
    intro st fed outs hinit halign hrem
    refine ⟨?_, ?_, ?_⟩
    · simp [Encoder.runWrites, trailingPart_of_lt B st.remainder hrem]
    · simp [Encoder.runWrites, alignedPart_of_lt B st.remainder hrem]
    · simp [Encoder.runWrites, alignedPart_of_lt B st.remainder hrem]
  | cons c cs ih =>
    intro st fed outs hinit halign hrem
    set sub := alignedPart B (st.remainder ++ c) with hsubdef
    set rem1 := trailingPart B (st.remainder ++ c) with hrem1def
    have hsplit : sub ++ rem1 = st.remainder ++ c :=
      alignedPart_append_trailingPart B (st.remainder ++ c)
    have hsubmod : sub.length % B = 0 := alignedPart_mod B (st.remainder ++ c)
    have hchunk1 : (alignChunk st.blockAlign st.remainder c).1 = sub := by
      rw [halign, alignChunk_eq]
    have hchunk2 : (alignChunk st.blockAlign st.remainder c).2 = rem1 := by
      rw [halign, alignChunk_eq]
    have hstep := Encoder.transformStep_oracle E fed st c hinit
    rw [hchunk1, hchunk2] at hstep
    have hrw : Encoder.runWrites E (st, fed, outs) (c :: cs) =
        Encoder.runWrites E
          ((Encoder.transformStep (E.oracle fed sub) st c).st, fed ++ sub,
            outs ++ (Encoder.transformStep (E.oracle fed sub) st c).pushed) cs := by
      simp only [Encoder.runWrites]
      rw [hchunk1]
    rw [hrw, hstep.1]
    have hih := ih { st with remainder := rem1 } (fed ++ sub)
      (outs ++ (Encoder.transformStep (E.oracle fed sub) st c).pushed)
      (by exact hinit) (by exact halign)
      (by exact length_trailingPart_lt B hB (st.remainder ++ c))
    simp only [List.flatten_append, List.append_assoc] at hih
    have hjoin : st.remainder ++ (c :: cs).flatten = (sub ++ rem1) ++ cs.flatten := by
      simp only [List.flatten_cons, hsplit]
      rw [List.append_assoc]
    have htail : trailingPart B (st.remainder ++ (c :: cs).flatten) =
        trailingPart B (rem1 ++ cs.flatten) := by
      rw [hjoin, List.append_assoc, trailingPart_append_left B sub _ hsubmod]
    have halignedtot : alignedPart B (st.remainder ++ (c :: cs).flatten) =
        sub ++ alignedPart B (rem1 ++ cs.flatten) := by
      rw [hjoin, List.append_assoc, alignedPart_append_left B sub _ hsubmod]
    have h1 : E.emit fed <+: E.emit (fed ++ sub) := E.mono fed sub
    have h2 : E.emit (fed ++ sub) <+:
        E.emit (fed ++ (sub ++ alignedPart B (rem1 ++ cs.flatten))) := by
      have hm := E.mono (fed ++ sub) (alignedPart B (rem1 ++ cs.flatten))
      rwa [List.append_assoc] at hm
    refine ⟨?_, ?_, ?_⟩
    · rw [hih.1, htail]
    · rw [hih.2.1, halignedtot]
    · rw [hih.2.2, hstep.2, halignedtot]
      rw [prefix_drop_append h1 h2]

/-! ## Structural lemmas about the transform and flush steps -/

lemma Encoder.transformBody_st (eng : EncEngine) (st : EncState) (pre : List EncCall)
    (chunk : List Byte) :
    (Encoder.transformBody eng st pre chunk).st =
      { st with remainder := (alignChunk st.blockAlign st.remainder chunk).2 } := by
  simp only [Encoder.transformBody]
  split
  · rfl
  · split
    · rfl
    · rfl

lemma Encoder.transformBody_calls (eng : EncEngine) (st : EncState) (pre : List EncCall)
    (chunk : List Byte) :
    (Encoder.transformBody eng st pre chunk).calls =
      pre ++ [EncCall.encodeBuffer (alignChunk st.blockAlign st.remainder chunk).1
        ((alignChunk st.blockAlign st.remainder chunk).1.length / st.blockAlign)
        (encodeAllocSize ((alignChunk st.blockAlign st.remainder chunk).1.length / st.blockAlign))] := by
  simp only [Encoder.transformBody]
  split
  · rfl
  · split
    · rfl
    · rfl

lemma Encoder.transformStep_of_init (eng : EncEngine) (st : EncState) (chunk : List Byte)
    (hi : st.initCalled = true) :
    Encoder.transformStep eng st chunk = Encoder.transformBody eng st [] chunk := by
  unfold Encoder.transformStep
  rw [hi]
  simp

lemma Encoder.transformStep_closeCalls (eng : EncEngine) (st : EncState) (chunk : List Byte) :
    (Encoder.transformStep eng st chunk).st.closeCalls = st.closeCalls ∧
    EncCall.close ∉ (Encoder.transformStep eng st chunk).calls := by
  unfold Encoder.transformStep
  split
  · refine ⟨?_, ?_⟩
    · rw [Encoder.transformBody_st]
    · rw [Encoder.transformBody_calls]
      simp
  · split
    · simp
    · next st1 heq =>
      have hcc : st1.closeCalls = st.closeCalls := by
        unfold Encoder.initStep at heq
        split at heq
        · injection heq with h12
          subst h12
          rfl
        · cases heq
      refine ⟨?_, ?_⟩
      · rw [Encoder.transformBody_st]
        simpa using hcc
      · rw [Encoder.transformBody_calls]
        simp

/-! ## Concrete fixtures used by the claim theorems -/

/-- Format descriptor used in concrete decoder runs. -/
def fmt0 : FormatDesc := { sampleRate := 44100, channels := 2, encoding := 208 }

/-- Successful metadata answer whose tag field is absent. -/
def id3ok : Id3Resp := { ret2 := MPG123_OK, hasTagField := false }

/-- Read answer with the new-ID3 bit set in its event flags and status DONE. -/
def stepNewId3 : ReadStep :=
  { ret := MPG123_DONE, bytes := 0, meta := 1, id3 := id3ok, fmt := fmt0 }

/-- Read answer with no event flag set and status DONE. -/
def stepPlain : ReadStep :=
  { ret := MPG123_DONE, bytes := 0, meta := 0, id3 := id3ok, fmt := fmt0 }

/-! ## Claim theorems -/

/-- C1: the claim says the constructor succeeds for every supported
channels/bitDepth/sampleEncoding combination and fails only on unsupported
ones. The code disagrees: the destructuring removes bitDepth from the options
object, so the checks on options.bitDepth compare undefined against the
supported widths and every construction, the all-default one included, throws
the unsupported-format error. -/
theorem C1_construct_always_rejects (o : EncOptions) :
    Encoder.construct o = .error .unsupportedFormat := by
  cases o
  simp [Encoder.construct, restOptions, jsTruthy, jsLooseEqNat]

/-- C3: the claim says metadata is fetched if and only if the new-ID3 bit is
set in the event flags. The code disagrees: the condition
meta & MPG123_NEW_ID3 !== 0 evaluates as meta & 1 by operator precedence and
its branches are inverted, so a read whose flags have the bit set (meta = 1)
dispatches directly with no metadata call, while a read whose flags are clear
(meta = 0) triggers the metadata fetch and an id3 event. -/
theorem C3_id3_gate_inverted :
    (1 &&& MPG123_NEW_ID3 ≠ 0) ∧ (0 &&& MPG123_NEW_ID3 = 0) ∧
    Decoder.runReads [stepNewId3] =
      { events := [], calls := [DecCall.readCall], outcome := .done } ∧
    Decoder.runReads [stepPlain] =
      { events := [DecEvent.id3 2], calls := [DecCall.readCall, DecCall.id3Call],
        outcome := .done } := by
  decide

lemma Decoder.runReads_calls_head (steps : List ReadStep) :
    (Decoder.runReads steps).calls.head? = some DecCall.readCall := by
  cases steps with
  | nil => rfl
  | cons r rest =>
    simp only [Decoder.runReads]
    split
    · rfl
    · split
      · rfl
      · rfl

/-- C7: whenever a read completing with NEW_FORMAT reaches the status
dispatch (directly, or after a successful metadata fetch with its id3 event),
the format event carrying the engine descriptor is emitted after the events
of that read (its bytes were decoded under the previous format) and before
every event of the later reads, and the loop issues another read instead of
ending the chunk: the remaining script is processed and its first engine call
is a read, so all PCM decoded under the new format follows the format event. -/
theorem C7_format_before_new_format_output (r : ReadStep) (rest : List ReadStep)
    (hret : r.ret = MPG123_NEW_FORMAT)
    (hm : jsNewId3Cond r.meta = true ∨
      (jsNewId3Cond r.meta = false ∧ r.id3.ret2 = MPG123_OK)) :
    Decoder.runReads (r :: rest) =
      { events := (if jsNewId3Cond r.meta then [] else
            [DecEvent.id3 (if r.id3.hasTagField then 1 else 2)])
          ++ (if 0 < r.bytes then [DecEvent.pcm r.bytes] else [])
          ++ DecEvent.format r.fmt :: (Decoder.runReads rest).events,
        calls := DecCall.readCall ::
          (if jsNewId3Cond r.meta then [] else [DecCall.id3Call])
          ++ DecCall.getformatCall :: (Decoder.runReads rest).calls,
        outcome := (Decoder.runReads rest).outcome } ∧
    (Decoder.runReads rest).calls.head? = some DecCall.readCall := by
  have hc1 : (MPG123_NEW_FORMAT == MPG123_DONE || MPG123_NEW_FORMAT == MPG123_NEED_MORE)
      = false := by decide
  have hc2 : (MPG123_NEW_FORMAT == MPG123_NEW_FORMAT) = true := by decide
  refine ⟨?_, Decoder.runReads_calls_head rest⟩
  rcases hm with hm | ⟨hm, hok⟩
  · simp only [Decoder.runReads]
    rw [hret, hm, hc1, hc2]
    simp
  · simp only [Decoder.runReads]
    rw [hret, hm, hok, hc1, hc2]
    simp

/-- C8: a failed feed fails the chunk with the feed error carrying the engine
code and no read is attempted; and a dispatched read status outside DONE,
NEED_MORE, NEW_FORMAT and OK fails the chunk with the read error carrying the
code. -/
theorem C8_feed_and_read_failures :
    (∀ (len : Nat) (s : DecScript), s.feedRet ≠ MPG123_OK →
      Decoder.transformStep len s =
        { events := [], calls := [DecCall.feed len],
          outcome := .failed (.feedError s.feedRet) }) ∧
    (∀ (r : ReadStep) (rest : List ReadStep),
      r.ret ≠ MPG123_DONE → r.ret ≠ MPG123_NEED_MORE → r.ret ≠ MPG123_NEW_FORMAT →
      r.ret ≠ MPG123_OK →
      (jsNewId3Cond r.meta = true ∨ (jsNewId3Cond r.meta = false ∧ r.id3.ret2 = MPG123_OK)) →
      (Decoder.runReads (r :: rest)).outcome = .failed (.readError r.ret)) := by
  constructor
  · intro len s h
    simp [Decoder.transformStep, h]
  · intro r rest h1 h2 h3 h4 hm
    rcases hm with hm | ⟨hm, hok⟩
    · simp [Decoder.runReads, hm, h1, h2, h3, h4]
    · simp [Decoder.runReads, hm, hok, h1, h2, h3, h4]

/-- Read answer reporting a new output format together with two bytes decoded
under the previous format, its flags bit set (direct dispatch). -/
def stepNewFormat : ReadStep :=
  { ret := MPG123_NEW_FORMAT, bytes := 2, meta := 1, id3 := id3ok, fmt := fmt0 }

/-- Read answer reporting a new output format with clear flags, dispatched
after a successful metadata fetch. -/
def stepNewFormatPlain : ReadStep :=
  { ret := MPG123_NEW_FORMAT, bytes := 2, meta := 0, id3 := id3ok, fmt := fmt0 }

theorem C7_format_before_new_format_output_witness :
    (Decoder.runReads [stepNewFormat, stepNewId3] =
      { events := (if jsNewId3Cond stepNewFormat.meta then [] else
            [DecEvent.id3 (if stepNewFormat.id3.hasTagField then 1 else 2)])
          ++ (if 0 < stepNewFormat.bytes then [DecEvent.pcm stepNewFormat.bytes] else [])
          ++ DecEvent.format stepNewFormat.fmt :: (Decoder.runReads [stepNewId3]).events,
        calls := DecCall.readCall ::
          (if jsNewId3Cond stepNewFormat.meta then [] else [DecCall.id3Call])
          ++ DecCall.getformatCall :: (Decoder.runReads [stepNewId3]).calls,
        outcome := (Decoder.runReads [stepNewId3]).outcome } ∧
      (Decoder.runReads [stepNewId3]).calls.head? = some DecCall.readCall) ∧
    (Decoder.runReads [stepNewFormatPlain, stepNewId3] =
      { events := (if jsNewId3Cond stepNewFormatPlain.meta then [] else
            [DecEvent.id3 (if stepNewFormatPlain.id3.hasTagField then 1 else 2)])
          ++ (if 0 < stepNewFormatPlain.bytes then [DecEvent.pcm stepNewFormatPlain.bytes] else [])
          ++ DecEvent.format stepNewFormatPlain.fmt :: (Decoder.runReads [stepNewId3]).events,
        calls := DecCall.readCall ::
          (if jsNewId3Cond stepNewFormatPlain.meta then [] else [DecCall.id3Call])
          ++ DecCall.getformatCall :: (Decoder.runReads [stepNewId3]).calls,
        outcome := (Decoder.runReads [stepNewId3]).outcome } ∧
      (Decoder.runReads [stepNewId3]).calls.head? = some DecCall.readCall) :=
  ⟨C7_format_before_new_format_output stepNewFormat [stepNewId3] rfl (Or.inl (by decide)),
    C7_format_before_new_format_output stepNewFormatPlain [stepNewId3] rfl
      (Or.inr ⟨by decide, rfl⟩)⟩

/-- Script whose feed call fails with engine code -1. -/
def scriptFeedFail : DecScript := { feedRet := -1, reads := [] }

/-- Read answer with an unrecognized error status -1 and the new-ID3 bit set. -/
def stepBadStatus : ReadStep :=
  { ret := -1, bytes := 0, meta := 1, id3 := id3ok, fmt := fmt0 }

theorem C8_feed_and_read_failures_witness :
    Decoder.transformStep 3 scriptFeedFail =
      { events := [], calls := [DecCall.feed 3],
        outcome := .failed (.feedError scriptFeedFail.feedRet) } ∧
    (Decoder.runReads [stepBadStatus]).outcome = .failed (.readError stepBadStatus.ret) :=
  ⟨C8_feed_and_read_failures.1 3 scriptFeedFail (by decide),
    C8_feed_and_read_failures.2 stepBadStatus [] (by decide) (by decide) (by decide) (by decide)
      (Or.inl (by decide))⟩

/-- Data of an encode call, used to collect every byte sequence submitted to
the bulk-encode entry point. -/
def encodeCallData : EncCall → Option (List Byte)
  | EncCall.encodeBuffer d _ _ => some d
  | _ => none

/-- C4: every byte sequence submitted to the bulk-encode call of a transform
step on an initialized stage has a length that is an exact multiple of the
block alignment bitDepth / 8 * channels; and concretely, on the stage
configured with two channels of 16 bit samples (alignment 4), a 43 byte write
submits exactly 40 bytes keeping 3, and a following 1 byte write submits
exactly 4 bytes keeping none. -/
theorem C4_block_aligned_submission :
    (∀ (eng : EncEngine) (st : EncState) (chunk : List Byte),
      st.initCalled = true → st.blockAlign = st.bitDepth / 8 * st.channels →
      (((Encoder.transformStep eng st chunk).calls.filterMap encodeCallData).all
        fun d => d.length % st.blockAlign == 0) = true) ∧
    (Encoder.transformStep engZero encFreshState (List.replicate 43 0)).calls =
      [EncCall.initParams,
        EncCall.encodeBuffer (List.replicate 40 0) 10 (encodeAllocSize 10)] ∧
    (Encoder.transformStep engZero encFreshState (List.replicate 43 0)).st.remainder =
      List.replicate 3 0 ∧
    (Encoder.transformStep engZero
        (Encoder.transformStep engZero encFreshState (List.replicate 43 0)).st
        (List.replicate 1 0)).calls =
      [EncCall.encodeBuffer (List.replicate 4 0) 1 (encodeAllocSize 1)] ∧
    (Encoder.transformStep engZero
        (Encoder.transformStep engZero encFreshState (List.replicate 43 0)).st
        (List.replicate 1 0)).st.remainder = [] := by
  refine ⟨?_, by decide, by decide, by decide, by decide⟩
  intro eng st chunk hinit _hrel
  rw [Encoder.transformStep_of_init eng st chunk hinit, Encoder.transformBody_calls]
  simp [encodeCallData, alignChunk_eq, alignedPart_mod]

theorem C4_block_aligned_submission_witness :
    (((Encoder.transformStep engZero encReadyState [5, 5, 5, 5, 5]).calls.filterMap
      encodeCallData).all fun d => d.length % encReadyState.blockAlign == 0) = true :=
  C4_block_aligned_submission.1 engZero encReadyState [5, 5, 5, 5, 5] rfl rfl

/-- C10: when the stored remainder and the new chunk together are shorter
than one block alignment, the whole combination becomes the new remainder,
the bulk-encode call is still issued with an empty data list and sample count
zero, and a zero result completes the write with nothing pushed. -/
theorem C10_empty_aligned_submit (eng : EncEngine) (st : EncState) (chunk : List Byte)
    (hinit : st.initCalled = true) (hlen : (st.remainder ++ chunk).length < st.blockAlign)
    (hz : eng.encodeRet = 0) :
    (Encoder.transformStep eng st chunk).st.remainder = st.remainder ++ chunk ∧
    (Encoder.transformStep eng st chunk).calls =
      [EncCall.encodeBuffer [] 0 (encodeAllocSize 0)] ∧
    (Encoder.transformStep eng st chunk).outcome = CbOutcome.completed ∧
    (Encoder.transformStep eng st chunk).pushed = [] := by
  have h1 : (alignChunk st.blockAlign st.remainder chunk).1 = [] := by
    rw [alignChunk_eq]
    exact alignedPart_of_lt _ _ hlen
  have h2 : (alignChunk st.blockAlign st.remainder chunk).2 = st.remainder ++ chunk := by
    rw [alignChunk_eq]
    exact trailingPart_of_lt _ _ hlen
  rw [Encoder.transformStep_of_init eng st chunk hinit]
  refine ⟨?_, ?_, ?_, ?_⟩
  · rw [Encoder.transformBody_st, h2]
  · rw [Encoder.transformBody_calls, h1]
    simp
  · simp [Encoder.transformBody, hz]
  · simp [Encoder.transformBody, hz]

theorem C10_empty_aligned_submit_witness :
    (Encoder.transformStep engZero encReadyState [9, 9, 9]).st.remainder =
      encReadyState.remainder ++ [9, 9, 9] ∧
    (Encoder.transformStep engZero encReadyState [9, 9, 9]).calls =
      [EncCall.encodeBuffer [] 0 (encodeAllocSize 0)] ∧
    (Encoder.transformStep engZero encReadyState [9, 9, 9]).outcome = CbOutcome.completed ∧
    (Encoder.transformStep engZero encReadyState [9, 9, 9]).pushed = [] :=
  C10_empty_aligned_submit engZero encReadyState [9, 9, 9] rfl (by decide) rfl

/-- Engine whose parameter initialization fails with code -1. -/
def engBadInit : EncEngine :=
  { initParamsRet := -1, encodeRet := 0, encodeOut := [], flushRet := 0 }

/-- Engine whose bulk-encode call fails with code -1. -/
def engEncodeFail : EncEngine :=
  { initParamsRet := LAME_OKAY, encodeRet := -1, encodeOut := [], flushRet := 0 }

/-- C2 counterexample: a flush on a stage whose lazy initialization fails
(no chunk was ever processed and lame_init_params reports -1) performs no
close call at all and leaves the handle in place, contradicting the claimed
exactly-once release on that terminating path. -/
theorem C2_cex_flush_init_fail_skips_release :
    (Encoder.flushStep engBadInit encFreshState).st.closeCalls = 0 ∧
    EncCall.close ∉ (Encoder.flushStep engBadInit encFreshState).calls ∧
    (Encoder.flushStep engBadInit encFreshState).st.gfp = some 1 ∧
    (Encoder.flushStep engBadInit encFreshState).outcome =
      CbOutcome.failed (JsError.paramsError (-1)) := by
  decide

/-- C2 amended: the handle is closed exactly once, nulled, and no engine call
follows the close, on every flush that reaches the engine flush call (whether
the stage was already initialized or its lazy initialization succeeds during
the flush); but on a flush whose lazy initialization fails the handle is not
released, and a mid-stream encode error performs no release either. -/
theorem C2_release_per_path :
    (∀ (eng : EncEngine) (st : EncState), st.initCalled = true →
      (Encoder.flushStep eng st).st.closeCalls = st.closeCalls + 1 ∧
      (Encoder.flushStep eng st).st.gfp = none ∧
      (Encoder.flushStep eng st).calls = [EncCall.flushNogap 7200, EncCall.close]) ∧
    (∀ (eng : EncEngine) (st : EncState), st.initCalled = false →
      eng.initParamsRet = LAME_OKAY →
      (Encoder.flushStep eng st).st.closeCalls = st.closeCalls + 1 ∧
      (Encoder.flushStep eng st).st.gfp = none ∧
      (Encoder.flushStep eng st).calls =
        [EncCall.initParams, EncCall.flushNogap 7200, EncCall.close]) ∧
    (∀ (eng : EncEngine) (st : EncState), st.initCalled = false →
      eng.initParamsRet ≠ LAME_OKAY →
      (Encoder.flushStep eng st).st.closeCalls = st.closeCalls ∧
      EncCall.close ∉ (Encoder.flushStep eng st).calls ∧
      (Encoder.flushStep eng st).outcome = .failed (.paramsError eng.initParamsRet)) ∧
    (∀ (eng : EncEngine) (st : EncState) (chunk : List Byte), eng.encodeRet < 0 →
      (Encoder.transformStep eng st chunk).st.closeCalls = st.closeCalls ∧
      EncCall.close ∉ (Encoder.transformStep eng st chunk).calls) := by
  refine ⟨?_, ?_, ?_, ?_⟩
  · intro eng st h
    simp [Encoder.flushStep, h, Encoder.flushBody]
  · intro eng st h1 h2
    simp [Encoder.flushStep, h1, Encoder.initStep, h2, Encoder.flushBody]
  · intro eng st h1 h2
    simp [Encoder.flushStep, h1, Encoder.initStep, h2]
  · intro eng st chunk _hneg
    exact Encoder.transformStep_closeCalls eng st chunk

theorem C2_release_per_path_witness :
    ((Encoder.flushStep engZero encReadyState).st.closeCalls = encReadyState.closeCalls + 1 ∧
      (Encoder.flushStep engZero encReadyState).st.gfp = none ∧
      (Encoder.flushStep engZero encReadyState).calls =
        [EncCall.flushNogap 7200, EncCall.close]) ∧
    ((Encoder.flushStep engZero encFreshState).st.closeCalls = encFreshState.closeCalls + 1 ∧
      (Encoder.flushStep engZero encFreshState).st.gfp = none ∧
      (Encoder.flushStep engZero encFreshState).calls =
        [EncCall.initParams, EncCall.flushNogap 7200, EncCall.close]) ∧
    ((Encoder.flushStep engBadInit encFreshState).st.closeCalls = encFreshState.closeCalls ∧
      EncCall.close ∉ (Encoder.flushStep engBadInit encFreshState).calls ∧
      (Encoder.flushStep engBadInit encFreshState).outcome =
        .failed (.paramsError engBadInit.initParamsRet)) ∧
    ((Encoder.transformStep engEncodeFail encReadyState [1, 2, 3, 4]).st.closeCalls =
        encReadyState.closeCalls ∧
      EncCall.close ∉ (Encoder.transformStep engEncodeFail encReadyState [1, 2, 3, 4]).calls) :=
  ⟨C2_release_per_path.1 engZero encReadyState rfl,
    C2_release_per_path.2.1 engZero encFreshState rfl rfl,
    C2_release_per_path.2.2.1 engBadInit encFreshState rfl (by decide),
    C2_release_per_path.2.2.2 engEncodeFail encReadyState [1, 2, 3, 4] (by decide)⟩

/-- C5: the claim says the flush result is dispatched like a bulk-encode
result (negative fails with the code, positive pushes the trimmed output,
zero pushes nothing) and the stream then completes. The code disagrees: the
flush callback declares no parameter, so whatever flush result the engine
reports (the quantified eng carries it as flushRet) the callback crashes on
the unbound identifier bytesWritten right after the close, nothing is ever
pushed, and the done callback never runs. -/
theorem C5_flush_result_unhandled (eng : EncEngine) (st : EncState)
    (hinit : st.initCalled = true) :
    (Encoder.flushStep eng st).outcome =
      CbOutcome.crashed (JsError.referenceError "bytesWritten") ∧
    (Encoder.flushStep eng st).pushed = [] := by
  simp [Encoder.flushStep, hinit, Encoder.flushBody]

/-- Engine reporting a negative flush result. -/
def engFlushNeg : EncEngine :=
  { initParamsRet := LAME_OKAY, encodeRet := 0, encodeOut := [], flushRet := -1 }

/-- Engine reporting a positive flush result. -/
def engFlushPos : EncEngine :=
  { initParamsRet := LAME_OKAY, encodeRet := 0, encodeOut := [], flushRet := 42 }

theorem C5_flush_result_unhandled_witness :
    ((Encoder.flushStep engFlushNeg encReadyState).outcome =
        CbOutcome.crashed (JsError.referenceError "bytesWritten") ∧
      (Encoder.flushStep engFlushNeg encReadyState).pushed = []) ∧
    ((Encoder.flushStep engFlushPos encReadyState).outcome =
        CbOutcome.crashed (JsError.referenceError "bytesWritten") ∧
      (Encoder.flushStep engFlushPos encReadyState).pushed = []) ∧
    ((Encoder.flushStep engZero encReadyState).outcome =
        CbOutcome.crashed (JsError.referenceError "bytesWritten") ∧
      (Encoder.flushStep engZero encReadyState).pushed = []) :=
  ⟨C5_flush_result_unhandled engFlushNeg encReadyState rfl,
    C5_flush_result_unhandled engFlushPos encReadyState rfl,
    C5_flush_result_unhandled engZero encReadyState rfl⟩

/-- Allocation size asserted by the claim: the ceiling of 1.25 times the
sample count plus the fixed overhead. -/
def specCeilAllocSize (numSamples : Nat) : Nat :=
  (5 * numSamples + 3) / 4 + 7200

/-- C9 counterexample: at sample count 2 (an aligned 8 byte chunk on a stage
with block alignment 4) the code allocates 7202 bytes, the floor of 1.25
times 2 plus 7200, not the claimed ceiling 7203: Buffer.alloc truncates the
fractional length 7202.5. -/
theorem C9_cex_alloc_not_ceil :
    (Encoder.transformStep engZero encReadyState (List.replicate 8 0)).calls =
      [EncCall.encodeBuffer (List.replicate 8 0) 2 7202] ∧
    specCeilAllocSize 2 = 7203 ∧ (7202 : Nat) ≠ 7203 := by
  decide

/-- C9 amended: the bulk-encode output buffer of a transform step on an
initialized stage is allocated with the floor of 1.25 times the sample count
plus 7200 bytes (the sample count being the aligned length divided by the
block alignment), and the end-of-stream flush allocates a fixed 7200 byte
output buffer. -/
theorem C9_alloc_sizes :
    (∀ (eng : EncEngine) (st : EncState) (chunk : List Byte), st.initCalled = true →
      (Encoder.transformStep eng st chunk).calls =
        [EncCall.encodeBuffer (alignChunk st.blockAlign st.remainder chunk).1
          ((alignChunk st.blockAlign st.remainder chunk).1.length / st.blockAlign)
          (5 * ((alignChunk st.blockAlign st.remainder chunk).1.length / st.blockAlign) / 4
            + 7200)]) ∧
    (∀ (eng : EncEngine) (st : EncState), st.initCalled = true →
      (Encoder.flushStep eng st).calls = [EncCall.flushNogap 7200, EncCall.close]) := by
  constructor
  · intro eng st chunk hinit
    rw [Encoder.transformStep_of_init eng st chunk hinit, Encoder.transformBody_calls]
    simp [encodeAllocSize]
  · intro eng st hinit
    simp [Encoder.flushStep, hinit, Encoder.flushBody]

theorem C9_alloc_sizes_witness :
    (Encoder.transformStep engZero encReadyState (List.replicate 8 0)).calls =
      [EncCall.encodeBuffer
        (alignChunk encReadyState.blockAlign encReadyState.remainder (List.replicate 8 0)).1
        ((alignChunk encReadyState.blockAlign encReadyState.remainder
          (List.replicate 8 0)).1.length / encReadyState.blockAlign)
        (5 * ((alignChunk encReadyState.blockAlign encReadyState.remainder
          (List.replicate 8 0)).1.length / encReadyState.blockAlign) / 4 + 7200)] ∧
    (Encoder.flushStep engZero encReadyState).calls =
      [EncCall.flushNogap 7200, EncCall.close] :=
  ⟨C9_alloc_sizes.1 engZero encReadyState (List.replicate 8 0) rfl,
    C9_alloc_sizes.2 engZero encReadyState rfl⟩

/-- C6 counterexample: after writing three bytes (less than one block
alignment) and flushing, the Remainder Buffer still holds those three bytes:
the flush issues only the engine flush and the close, never submits them, and
pushes nothing, so the buffer is not empty immediately after flush and its
bytes are dropped. -/
theorem C6_cex_remainder_after_flush :
    (Encoder.flushStep engZero
        (Encoder.transformStep engZero encReadyState [7, 7, 7]).st).st.remainder = [7, 7, 7] ∧
    (Encoder.flushStep engZero
        (Encoder.transformStep engZero encReadyState [7, 7, 7]).st).calls =
      [EncCall.flushNogap 7200, EncCall.close] ∧
    (Encoder.flushStep engZero
        (Encoder.transformStep engZero encReadyState [7, 7, 7]).st).pushed = [] ∧
    ([7, 7, 7] : List Byte) ≠ [] := by
  decide

/-- C6 amended: against any deterministic engine, two chunkings of the same
total PCM input produce the same concatenated write-path output and the same
final remainder (both are functions of the total input alone, the output
being the engine production on the maximal aligned part); but the flush
leaves the Remainder Buffer untouched and pushes nothing, so trailing bytes
are retained, not flushed as short final output. -/
theorem C6_chunking_independence :
    (∀ (E : SpecEngine) (B : Nat) (st : EncState) (cs1 cs2 : List (List Byte)),
      0 < B → st.initCalled = true → st.blockAlign = B → st.remainder = [] →
      cs1.flatten = cs2.flatten →
      (Encoder.runWrites E (st, [], []) cs1).2.2.flatten =
        (Encoder.runWrites E (st, [], []) cs2).2.2.flatten ∧
      (Encoder.runWrites E (st, [], []) cs1).1.remainder =
        (Encoder.runWrites E (st, [], []) cs2).1.remainder) ∧
    (∀ (eng : EncEngine) (st : EncState), st.initCalled = true →
      (Encoder.flushStep eng st).st.remainder = st.remainder ∧
      (Encoder.flushStep eng st).pushed = []) := by
  constructor
  · intro E B st cs1 cs2 hB hinit halign hrem hjoin
    have hlt : st.remainder.length < B := by
      rw [hrem]
      simpa using hB
    have h1 := Encoder.runWrites_char E B hB cs1 st [] [] hinit halign hlt
    have h2 := Encoder.runWrites_char E B hB cs2 st [] [] hinit halign hlt
    constructor
    · rw [h1.2.2, h2.2.2, hjoin]
    · rw [h1.1, h2.1]
      simp [hjoin]
  · intro eng st hinit
    simp [Encoder.flushStep, hinit, Encoder.flushBody]

/-- Deterministic engine that reproduces its input; it satisfies the
monotone production contract. -/
def idEngine : SpecEngine :=
  { emit := fun xs => xs, mono := fun _ ys => ⟨ys, rfl⟩ }

theorem C6_chunking_independence_witness :
    ((Encoder.runWrites idEngine (encReadyState, [], []) [[1, 2, 3, 4, 5]]).2.2.flatten =
        (Encoder.runWrites idEngine (encReadyState, [], []) [[1], [2, 3, 4, 5]]).2.2.flatten ∧
      (Encoder.runWrites idEngine (encReadyState, [], []) [[1, 2, 3, 4, 5]]).1.remainder =
        (Encoder.runWrites idEngine (encReadyState, [], []) [[1], [2, 3, 4, 5]]).1.remainder) ∧
    ((Encoder.flushStep engZero encReadyState).st.remainder = encReadyState.remainder ∧
      (Encoder.flushStep engZero encReadyState).pushed = []) :=
  ⟨C6_chunking_independence.1 idEngine 4 encReadyState [[1, 2, 3, 4, 5]] [[1], [2, 3, 4, 5]]
      (by decide) rfl rfl rfl (by decide),
    C6_chunking_independence.2 engZero encReadyState rfl⟩

end NodeLame
